import Mathlib

/-!
Shallow embedding of the UART baudrate detection modules
`src/owfmodules/uart/baudrate.py` (class `Baudrate`, version 2.0.0) and
`src/owfmodules/uart/baudrates.py` (class `Baudrates`, version 1.0.0).

Python one-byte reads (`uart_instance.receive(1)`) are modelled as `Nat`
byte values (0..255).  A Python value that is either a decoded
one-character `str` or a raw one-byte `bytes` object is modelled by
`PyChar`; Python strings appearing in options are modelled as lists of
code points (`List Nat`).  All I/O (logging, progress display, sleeps,
the serial transport) is abstracted away: byte arrival is an event
trace, transmissions and settle delays are recorded in a log.
-/

namespace UartBaudrate

/-- A Python value that is either a decoded single-character string
(`pstr c`, holding the code point) or an undecoded single-byte bytes
object (`pbytes b`).  In `process_baudrate` (baudrate.py lines 222-225)
`byte = tmp.decode('utf-8')` yields a `str` on success and the raw
`bytes` object is kept on `UnicodeDecodeError`.  In Python a `str` never
compares equal to a `bytes`, which `DecidableEq` on this type mirrors. -/
inductive PyChar where
  | pstr (c : Nat)
  | pbytes (b : Nat)
deriving DecidableEq, Repr

/-- Decoding a single byte as UTF-8 (baudrate.py lines 222-225,
baudrates.py lines 155-158): bytes below 0x80 decode to the identical
code point, bytes 0x80 and above are not a valid single-byte UTF-8
sequence, raise `UnicodeDecodeError`, and the raw bytes object is kept. -/
def decodeByte (b : Nat) : PyChar :=
  if b < 128 then .pstr b else .pbytes b

/-- self.vowels = ["a","A","e","E","i","I","o","O","u","U"]
(baudrate.py line 78, baudrates.py line 37). -/
def vowels : List PyChar :=
  [.pstr 97, .pstr 65, .pstr 101, .pstr 69, .pstr 105, .pstr 73,
   .pstr 111, .pstr 79, .pstr 117, .pstr 85]

/-- self.whitespace = [" ", "\t", "\r", "\n"]
(baudrate.py line 79, baudrates.py line 38). -/
def whitespace : List PyChar := [.pstr 32, .pstr 9, .pstr 13, .pstr 10]

/-- self.punctation = [".", ",", ":", ";", "?", "!"]
(baudrate.py line 80, baudrates.py line 39). -/
def punctation : List PyChar :=
  [.pstr 46, .pstr 44, .pstr 58, .pstr 59, .pstr 63, .pstr 33]

/-- self.control = [b'\x0e', b'\x0f', b'\xe0', b'\xfe', b'\xc0', b'\x0d', b'\x0a']
(baudrate.py line 81, baudrates.py line 40).  Note these are `bytes`
objects, not strings. -/
def control : List PyChar :=
  [.pbytes 14, .pbytes 15, .pbytes 224, .pbytes 254, .pbytes 192,
   .pbytes 13, .pbytes 10]

/-- The byte values of the fixed control set, as the spec lists them. -/
def controlSet : List Nat := [14, 15, 224, 254, 192, 13, 10]

/-- One step of the append-if-absent loops of `gen_char_list`
(baudrate.py lines 141-147, baudrates.py lines 65-71). -/
def appendIfAbsent (acc : List PyChar) (c : PyChar) : List PyChar :=
  if c ∈ acc then acc else acc ++ [c]

/-- gen_char_list (baudrate.py lines 129-148, baudrates.py lines 54-72):
the strings ' ' (0x20) through '~' (0x7E), then every element of
self.whitespace not already present, then every element of self.control
not already present.  The control elements are `bytes` objects, so none
of them can already be present among the strings and all seven are
appended as `bytes`. -/
def genCharList : List PyChar :=
  let base := (List.range 95).map (fun i => PyChar.pstr (32 + i))
  let withWs := whitespace.foldl appendIfAbsent base
  control.foldl appendIfAbsent withWs

/-- The five possible treatments of a received byte by the classification
chain of `process_baudrate` (baudrate.py lines 227-240) and
`baudrate_detect` (baudrates.py lines 159-176).  The code has no branch
that continues without counting: every byte found in `valid_characters`
increments `count`, and everything else is invalid. -/
inductive CodeCategory where
  | whitespaceC
  | punctuationC
  | vowelC
  | otherValidC
  | invalidC
deriving DecidableEq, Repr

/-- The classification chain applied to one received byte
(baudrate.py lines 222-234): decode the byte, then test membership of
the resulting str-or-bytes value in `valid_characters` and in the
whitespace / punctuation / vowel lists, in that order. -/
def classifyByte (b : Nat) : CodeCategory :=
  let byte := decodeByte b
  if byte ∈ genCharList then
    if byte ∈ whitespace then .whitespaceC
    else if byte ∈ punctation then .punctuationC
    else if byte ∈ vowels then .vowelC
    else .otherValidC
  else .invalidC

/-- The per-trial counters of `process_baudrate` (baudrate.py lines
202-205) and `baudrate_detect` (baudrates.py lines 125-128).  `other` is
an auxiliary counter, not present in the source, counting the valid
bytes that fall through all three category tests and only execute the
bare `count += 1` (baudrate.py line 234); it makes the spec's
`otherPrintableCount` expressible. -/
structure TrialState where
  count : Nat
  whitespace : Nat
  punctuation : Nat
  vowels : Nat
  other : Nat
deriving DecidableEq, Repr

/-- The counters at the start of a trial in baudrate.py (lines 202-205:
local variables initialised to 0) and at the start of `baudrate_detect`
in baudrates.py (lines 125-128). -/
def initState : TrialState := ⟨0, 0, 0, 0, 0⟩

/-- threshold = 20 (baudrate.py line 206, baudrates.py line 129). -/
def threshold : Nat := 20

/-- The acceptance test of baudrate.py line 241 / baudrates.py line 177:
`count >= threshold and whitespace > 0 and punctuation >= 0 and vowels > 0`.
The `punctuation >= 0` conjunct is kept verbatim. -/
def acceptCondition (count whitespace punctuation vowels : Nat) : Bool :=
  decide (threshold ≤ count) && decide (0 < whitespace) &&
    decide (0 ≤ punctuation) && decide (0 < vowels)

/-- Result of processing one received byte inside the trial loop. -/
inductive StepResult where
  | accepted
  | rejected
  | continued
deriving DecidableEq, Repr

/-- Processing of one received byte (baudrate.py lines 227-247): update
the counters according to the classification chain, reject on an
invalid character, and accept as soon as the acceptance test passes.
In baudrate.py a rejection leaves the counters as they are (the
function returns); the baudrates.py variant additionally zeroes them,
which is modelled at its call site. -/
def processByte (st : TrialState) (b : Nat) : StepResult × TrialState :=
  match classifyByte b with
  | .invalidC => (.rejected, st)
  | cat =>
    let st' :=
      match cat with
      | .whitespaceC =>
          { st with whitespace := st.whitespace + 1, count := st.count + 1 }
      | .punctuationC =>
          { st with punctuation := st.punctuation + 1, count := st.count + 1 }
      | .vowelC =>
          { st with vowels := st.vowels + 1, count := st.count + 1 }
      | _ =>
          { st with other := st.other + 1, count := st.count + 1 }
    if acceptCondition st'.count st'.whitespace st'.punctuation st'.vowels then
      (.accepted, st')
    else (.continued, st')

/-- The evolution of the counters over a sequence of received bytes:
the loop keeps reading while the step continues, and stops at the first
acceptance or rejection. -/
def feed (st : TrialState) : List Nat → TrialState
  | [] => st
  | b :: rest =>
    match processByte st b with
    | (.continued, st') => feed st' rest
    | (_, st') => st'

/-- One result of a call to `wait_bytes` inside the trial loop: either a
byte became available and `receive(1)` returned it, or the one-second
wait elapsed with nothing pending (baudrate.py lines 115-127 and 212). -/
inductive TrialEvent where
  | byteReceived (b : Nat)
  | timeout
deriving DecidableEq, Repr

/-- How a trial ends (the three `return` paths of `process_baudrate`,
baudrate.py lines 240, 247 and 256). -/
inductive TrialOutcome where
  | accepted
  | rejected
  | noData
deriving DecidableEq, Repr

/-- What a run of `process_baudrate` produced: its boolean outcome, the
final counters, and the log of `trigger_device` calls, each recorded as
the transmitted payload together with the settle delay in milliseconds
(`time.sleep(0.2)` after the transmit, baudrate.py lines 176-177). -/
structure TrialRun where
  outcome : TrialOutcome
  finalState : TrialState
  triggers : List (List Nat × Nat)
deriving DecidableEq, Repr

/-- The `while True` loop of `process_baudrate` (baudrate.py lines
211-256), driven by the trace of wait results.  On a received byte the
counters are updated and the loop accepts, rejects or continues; on a
timeout, if the trigger option is set and fewer than 3 triggers have
fired this trial (`loop < 3`, line 248), the payload is transmitted
followed by the 200 ms settle delay and the wait is retried, otherwise
the trial ends as "no data received".  An exhausted trace is treated as
the loop still waiting, ending the trial without a further trigger. -/
def processBaudrate (trigger : Bool) (payload : List Nat) (st : TrialState)
    (loop : Nat) : List TrialEvent → TrialRun
  | .byteReceived b :: rest =>
    match processByte st b with
    | (.continued, st') => processBaudrate trigger payload st' loop rest
    | (.accepted, st') => ⟨.accepted, st', []⟩
    | (.rejected, st') => ⟨.rejected, st', []⟩
  | .timeout :: rest =>
    if trigger ∧ loop < 3 then
      let r := processBaudrate trigger payload st (loop + 1) rest
      { r with triggers := (payload, 200) :: r.triggers }
    else ⟨.noData, st, []⟩
  | [] => ⟨.noData, st, []⟩

/-- One full trial of baudrate.py: `process_baudrate` initialises all
counters and the trigger counter to zero on entry (lines 202-208). -/
def runTrial (trigger : Bool) (payload : List Nat)
    (events : List TrialEvent) : TrialRun :=
  processBaudrate trigger payload initState 0 events

/-- Outcome of one candidate inside the cross-candidate scan: either
`change_baudrate` failed (the trial loop never ran) or the trial ran
with the given outcome. -/
inductive ScanOutcome where
  | switchFailed
  | ran (o : TrialOutcome)
deriving DecidableEq, Repr

/-- The candidate loop shared by `incremental_mode` and `list_mode`
(baudrate.py lines 298-322): for each candidate, try to switch the
baudrate; on success run `process_baudrate` from fresh counters and
stop the whole scan (`break`) as soon as a trial accepts.  `chg` tells
whether `change_baudrate` succeeds for a candidate and `env` gives the
trace of wait results observed at that candidate. -/
def scanCandidates (chg : Int → Bool) (env : Int → List TrialEvent)
    (trigger : Bool) (payload : List Nat) :
    List Int → List (Int × ScanOutcome)
  | [] => []
  | c :: rest =>
    if chg c then
      let r := runTrial trigger payload (env c)
      match r.outcome with
      | .accepted => [(c, .ran .accepted)]
      | o => (c, .ran o) :: scanCandidates chg env trigger payload rest
    else (c, .switchFailed) :: scanCandidates chg env trigger payload rest

/-- The inner `while True` loop of `baudrate_detect` (baudrates.py lines
146-193).  Same byte handling as baudrate.py except that an invalid
character zeroes all counters before breaking (lines 169-172), while an
acceptance or a timeout breaks with the counters kept. -/
def innerLoopV1 (trigger : Bool) (st : TrialState) (loop : Nat) :
    List TrialEvent → TrialOutcome × TrialState
  | .byteReceived b :: rest =>
    match processByte st b with
    | (.continued, st') => innerLoopV1 trigger st' loop rest
    | (.accepted, st') => (.accepted, st')
    | (.rejected, _) => (.rejected, initState)
  | .timeout :: rest =>
    if trigger ∧ loop < 3 then innerLoopV1 trigger st (loop + 1) rest
    else (.noData, st)
  | [] => (.noData, st)

/-- One record of the baudrates.py scan: the candidate, the counters at
the start of its trial, the outcome (`none` when `change_baudrate`
failed and no trial ran), and the counters at its end. -/
structure BRecord where
  baudrate : Int
  startState : TrialState
  outcome : Option TrialOutcome
  endState : TrialState
deriving DecidableEq, Repr

/-- The `for baudrate in self.baudrates` loop of `baudrate_detect`
(baudrates.py lines 141-193).  The counters `st` live outside the loop
(lines 125-128) and are threaded from one candidate to the next; only
the trigger counter `loop` is re-initialised to 0 per candidate (line
142).  Every `break` in the source exits only the inner while loop, so
the scan always continues with the remaining candidates, including
after an acceptance. -/
def baudratesGo (chg : Int → Bool) (env : Int → List TrialEvent)
    (trigger : Bool) (st : TrialState) : List Int → List BRecord
  | [] => []
  | c :: rest =>
    if chg c then
      let r := innerLoopV1 trigger st 0 (env c)
      ⟨c, st, some r.1, r.2⟩ :: baudratesGo chg env trigger r.2 rest
    else ⟨c, st, none, st⟩ :: baudratesGo chg env trigger st rest

/-- self.baudrates (baudrates.py line 41). -/
def baudratesList : List Int := [9600, 19200, 38400, 57600, 115200]

/-- `baudrate_detect` (baudrates.py lines 119-193): counters start from
zero (lines 125-128) and the fixed candidate list is scanned. -/
def baudrateDetect (chg : Int → Bool) (env : Int → List TrialEvent)
    (trigger : Bool) : List BRecord :=
  baudratesGo chg env trigger initState baudratesList

/-- Fuel-driven unfolding of Python `range(lo, hi, step)` for a positive
step: emit `lo` and continue from `lo + step` while `lo < hi`.  The fuel
`(hi - lo).toNat` is an upper bound on the length whenever `0 < step`,
so `pyRangeUp` below computes the whole range. -/
def pyRangeUpAux (step hi : Int) : Nat → Int → List Int
  | 0, _ => []
  | n + 1, lo => if lo < hi then lo :: pyRangeUpAux step hi n (lo + step) else []

/-- Python `range(lo, hi, step)` restricted to a positive step, as used
by `incremental_mode` (baudrate.py lines 303-305) with the
`baudrate_min`, `baudrate_max` and `baudrate_increment` options: the
ascending arithmetic progression from `lo`, strictly below `hi`.  For
`step ≤ 0` this model returns `[]` (the module never passes a negative
step; Python would raise for step 0). -/
def incrementalCandidates (lo hi step : Int) : List Int :=
  if 0 < step then pyRangeUpAux step hi (hi - lo).toNat lo else []

/-- Python `str.split(",")` on a string given as code points: splitting
an empty string yields `['']`, so the result is never the empty list. -/
def pySplitComma : List Nat → List (List Nat)
  | [] => [[]]
  | c :: rest =>
    if c = 44 then [] :: pySplitComma rest
    else
      match pySplitComma rest with
      | [] => [[c]]
      | h :: t => (c :: h) :: t

/-- The characters Python `str.strip()` removes. -/
def pyIsSpace (c : Nat) : Bool := c ∈ [32, 9, 10, 13, 11, 12]

/-- Python `str.strip()`: drop leading and trailing whitespace. -/
def pyStrip (s : List Nat) : List Nat :=
  ((s.dropWhile pyIsSpace).reverse.dropWhile pyIsSpace).reverse

/-- Parse a nonempty all-digit string; `none` models `ValueError`. -/
def parseDigits (ds : List Nat) : Option Int :=
  if ds ≠ [] ∧ ds.all (fun c => 48 ≤ c && c ≤ 57) then
    some (ds.foldl (fun acc c => acc * 10 + ((c : Int) - 48)) 0)
  else none

/-- Python `int(s)` for a decimal string: optional surrounding
whitespace, optional sign, then digits; `none` models `ValueError`. -/
def pyInt (s : List Nat) : Option Int :=
  match pyStrip s with
  | 43 :: ds => parseDigits ds
  | 45 :: ds => (parseDigits ds).map (fun n => -n)
  | ds => parseDigits ds

/-- The list comprehension of `list_mode` (baudrate.py line 317):
`[int(b.strip()) for b in value.split(",")]`; `none` models the
`ValueError` raised at run time by an unparsable entry. -/
def listModeCandidates (s : List Nat) : Option (List Int) :=
  (pySplitComma s).mapM (fun b => pyInt (pyStrip b))

/-- The option values `check_options` (baudrate.py lines 87-113) reads:
`reset_pin` (an `int`, or unset, modelled as `Option Int`), the strings
`reset_dir`, `mode` and `baudrate_list` as code-point lists, and the
incremental-mode integers. -/
structure ModOptions where
  resetPin : Option Int
  resetDir : List Nat
  mode : List Nat
  baudrateList : List Nat
  baudrateMin : Int
  baudrateMax : Int
  baudrateIncrement : Int
deriving DecidableEq, Repr

/-- Python `str.upper()` on ASCII code points. -/
def pyCharUpper (c : Nat) : Nat := if 97 ≤ c ∧ c ≤ 122 then c - 32 else c

/-- Python `str.upper()` for a whole string of code points. -/
def pyUpper (s : List Nat) : List Nat := s.map pyCharUpper

/-- "LOW" as code points. -/
def strLOW : List Nat := [76, 79, 87]

/-- "HIGH" as code points. -/
def strHIGH : List Nat := [72, 73, 71, 72]

/-- "INCREMENTAL" as code points. -/
def strINCREMENTAL : List Nat := [73, 78, 67, 82, 69, 77, 69, 78, 84, 65, 76]

/-- "LIST" as code points. -/
def strLIST : List Nat := [76, 73, 83, 84]

/-- "low" as code points. -/
def strLow : List Nat := [108, 111, 119]

/-- "incremental" as code points. -/
def strIncremental : List Nat :=
  [105, 110, 99, 114, 101, 109, 101, 110, 116, 97, 108]

/-- "list" as code points. -/
def strList : List Nat := [108, 105, 115, 116]

/-- The mode and list checks of `check_options` (baudrate.py lines
100-113): reject an unknown mode; in list mode build
`[b.strip() for b in value.split(",")]` and reject it only when empty.
The `except` of lines 111-112 is unreachable for a string value
(`split` and `strip` never raise) and, even when entered, it does not
return `False`, so the function would still fall through to
`return True`; the entries are never parsed as integers here. -/
def modeChecks (o : ModOptions) : Bool :=
  if pyUpper o.mode ∉ [strINCREMENTAL, strLIST] then false
  else if pyUpper o.mode = strLIST then
    let baudList := (pySplitComma o.baudrateList).map pyStrip
    if baudList = [] then false else true
  else true

/-- `check_options` (baudrate.py lines 87-113): when `reset_pin` is set,
first the reset direction must be "low" or "high" (case-insensitive,
lines 94-96), then the pin must lie in `range(0, 15)` (lines 97-99);
then the mode and list checks run.  Nothing validates `baudrate_min`,
`baudrate_max` or `baudrate_increment`. -/
def checkOptions (o : ModOptions) : Bool :=
  match o.resetPin with
  | some p =>
    if pyUpper o.resetDir ∉ [strLOW, strHIGH] then false
    else if ¬ (0 ≤ p ∧ p < 15) then false
    else modeChecks o
  | none => modeChecks o

/-- The Python exception classes relevant to `run` (baudrate.py lines
324-347, baudrates.py lines 195-209). -/
inductive PyExcClass where
  | baseExceptionClass
  | exceptionClass
  | valueErrorClass
  | keyboardInterruptClass
deriving DecidableEq, Repr

/-- The ancestors (method resolution order) of each class in Python's
exception hierarchy: `ValueError < Exception < BaseException` and
`KeyboardInterrupt < BaseException` — `KeyboardInterrupt` deliberately
does not derive from `Exception`. -/
def ancestors : PyExcClass → List PyExcClass
  | .baseExceptionClass => [.baseExceptionClass]
  | .exceptionClass => [.exceptionClass, .baseExceptionClass]
  | .valueErrorClass => [.valueErrorClass, .exceptionClass, .baseExceptionClass]
  | .keyboardInterruptClass => [.keyboardInterruptClass, .baseExceptionClass]

/-- Whether class `e` is `c` or derives from `c`. -/
def isSubclass (e c : PyExcClass) : Bool := c ∈ ancestors e

/-- An `except (A, B)` clause catches a raised exception exactly when
its class is a subclass of one of the listed classes. -/
def clauseCatches (clause : List PyExcClass) (e : PyExcClass) : Bool :=
  clause.any (fun c => isSubclass e c)

/-- The handler protecting the whole detection in `run`:
`except (Exception, ValueError) as err` (baudrate.py line 346,
baudrates.py line 208). -/
def runExceptClause : List PyExcClass := [.exceptionClass, .valueErrorClass]

/-- Whether an exception of class `e` raised inside the detection
escapes `run`: it does whenever the `except (Exception, ValueError)`
clause does not catch it. -/
def runPropagates (e : PyExcClass) : Bool := ! clauseCatches runExceptClause e

/-- A concrete environment: at 9600 baud the target sends nineteen
letters 'a' and then a space (twenty qualifying bytes, with a vowel and
a whitespace, so the trial accepts on the twentieth byte); at 19200 it
sends a single 'a'; every other candidate only times out. -/
def envC4 : Int → List TrialEvent := fun c =>
  if c = 9600 then List.replicate 19 (TrialEvent.byteReceived 97) ++ [TrialEvent.byteReceived 32]
  else if c = 19200 then [TrialEvent.byteReceived 97]
  else [TrialEvent.timeout]

/-- A concrete environment: at 9600 baud the target sends three letters
'a' and then goes silent; every other candidate only times out. -/
def envC5 : Int → List TrialEvent := fun c =>
  if c = 9600 then
    [TrialEvent.byteReceived 97, TrialEvent.byteReceived 97,
     TrialEvent.byteReceived 97, TrialEvent.timeout]
  else [TrialEvent.timeout]

/-- A concrete environment in which every candidate immediately yields
the byte 0x00, an invalid character, so every trial is rejected. -/
def envR : Int → List TrialEvent := fun _ => [TrialEvent.byteReceived 0]

/- ------------------------------------------------------------------ -/
/- Helper lemmas                                                       -/
/- ------------------------------------------------------------------ -/

lemma acceptCondition_iff (c w p v : Nat) :
    acceptCondition c w p v = true ↔ (20 ≤ c ∧ 0 < w ∧ 0 < v) := by
  simp [acceptCondition, threshold]
  omega

lemma processByte_fst_accepted (st : TrialState) (b : Nat)
    (h : classifyByte b ≠ .invalidC) :
    (processByte st b).1 = .accepted ↔
      acceptCondition (processByte st b).2.count (processByte st b).2.whitespace
        (processByte st b).2.punctuation (processByte st b).2.vowels = true := by
  cases hc : classifyByte b <;> simp only [processByte, hc] <;>
    first
      | exact absurd hc h
      | (split <;> simp_all)

lemma processByte_preserves_sum (st : TrialState) (b : Nat)
    (h : st.count = st.whitespace + st.punctuation + st.vowels + st.other) :
    (processByte st b).2.count =
      (processByte st b).2.whitespace + (processByte st b).2.punctuation +
        (processByte st b).2.vowels + (processByte st b).2.other := by
  cases hc : classifyByte b <;> simp only [processByte, hc] <;>
    (try split) <;> (try simp) <;> omega

lemma feed_preserves_sum (bs : List Nat) :
    ∀ st : TrialState,
      st.count = st.whitespace + st.punctuation + st.vowels + st.other →
      (feed st bs).count =
        (feed st bs).whitespace + (feed st bs).punctuation +
          (feed st bs).vowels + (feed st bs).other := by
  induction bs with
  | nil => intro st h; simpa [feed] using h
  | cons b rest ih =>
    intro st h
    have hstep := processByte_preserves_sum st b h
    rcases hpb : processByte st b with ⟨r, st'⟩
    rw [hpb] at hstep
    cases r <;> simp only [feed, hpb] <;> first | exact ih st' hstep | exact hstep

end UartBaudrate

namespace UartBaudrate

/- ------------------------------------------------------------------ -/
/- Claim theorems                                                      -/
/- ------------------------------------------------------------------ -/

/-- C1: after a qualifying (non-invalid) byte is counted, the scorer
accepts exactly when the updated total is at least 20, the whitespace
counter is positive and the vowel counter is positive; the punctuation
counter is tracked but never restricts the decision — the acceptance
test gives the same answer for all values of the punctuation counter. -/
theorem scorer_accept_rule :
    (∀ (st : TrialState) (b : Nat), classifyByte b ≠ .invalidC →
      ((processByte st b).1 = .accepted ↔
        (20 ≤ (processByte st b).2.count ∧ 0 < (processByte st b).2.whitespace ∧
          0 < (processByte st b).2.vowels)))
    ∧ ∀ c w p p' v : Nat, acceptCondition c w p v = acceptCondition c w p' v := by
  constructor
  · intro st b h
    rw [processByte_fst_accepted st b h, acceptCondition_iff]
  · intro c w p p' v
    simp [acceptCondition, Nat.zero_le]

/-- C1 witness: a state with 19 counted bytes, one of them whitespace,
reaches acceptance on a vowel, and the acceptance test ignores the
punctuation counter at a concrete input. -/
theorem scorer_accept_rule_witness :
    ((processByte ⟨19, 1, 0, 0, 18⟩ 97).1 = .accepted ↔
      (20 ≤ (processByte ⟨19, 1, 0, 0, 18⟩ 97).2.count ∧
        0 < (processByte ⟨19, 1, 0, 0, 18⟩ 97).2.whitespace ∧
        0 < (processByte ⟨19, 1, 0, 0, 18⟩ 97).2.vowels))
    ∧ acceptCondition 20 1 0 1 = acceptCondition 20 1 7 1 :=
  ⟨scorer_accept_rule.1 ⟨19, 1, 0, 0, 18⟩ 97 (by decide),
   scorer_accept_rule.2 20 1 0 7 1⟩

/-- C2 counterexample: byte 0x0E of the fixed control set is classified
invalid (it decodes to a one-character string, which never equals the
`bytes` object stored in `valid_characters`) and rejects the trial;
byte 0x0D is counted as whitespace; byte 0xE0 increments the total.
Each of these contradicts "category Control: neither rejected as
Invalid nor counted under any other category". -/
theorem control_set_claim_cex :
    classifyByte 14 = .invalidC ∧ (processByte initState 14).1 = .rejected ∧
    classifyByte 13 = .whitespaceC ∧ (processByte initState 13).2.whitespace = 1 ∧
    classifyByte 224 = .otherValidC ∧ (processByte initState 224).2.count = 1 := by
  decide

/-- C2 amended: of the fixed control set, the decodable bytes 0x0E and
0x0F are invalid and reject the trial with the counters untouched; the
decodable bytes 0x0D and 0x0A are counted as whitespace; the
undecodable bytes 0xE0, 0xFE and 0xC0 are accepted through the raw
`bytes` fallback and increment the total (and the fall-through count)
without being rejected. -/
theorem control_set_actual_behavior :
    ∀ st : TrialState,
      processByte st 14 = (.rejected, st) ∧
      processByte st 15 = (.rejected, st) ∧
      (processByte st 13).2 =
        { st with whitespace := st.whitespace + 1, count := st.count + 1 } ∧
      (processByte st 10).2 =
        { st with whitespace := st.whitespace + 1, count := st.count + 1 } ∧
      (processByte st 224).2 =
        { st with other := st.other + 1, count := st.count + 1 } ∧
      (processByte st 254).2 =
        { st with other := st.other + 1, count := st.count + 1 } ∧
      (processByte st 192).2 =
        { st with other := st.other + 1, count := st.count + 1 } ∧
      (processByte st 224).1 ≠ .rejected ∧
      (processByte st 13).1 ≠ .rejected := by
  intro st
  have h14 : classifyByte 14 = .invalidC := by decide
  have h15 : classifyByte 15 = .invalidC := by decide
  have h13 : classifyByte 13 = .whitespaceC := by decide
  have h10 : classifyByte 10 = .whitespaceC := by decide
  have h224 : classifyByte 224 = .otherValidC := by decide
  have h254 : classifyByte 254 = .otherValidC := by decide
  have h192 : classifyByte 192 = .otherValidC := by decide
  refine ⟨?_, ?_, ?_, ?_, ?_, ?_, ?_, ?_, ?_⟩ <;>
    simp only [processByte, h14, h15, h13, h10, h224, h254, h192] <;>
    (try split) <;> simp

/-- C3 counterexample: the control-set byte 0xE0 does not leave the
counters unchanged — it increments the total from 0 to 1 — and the
control-set byte 0x0D increments the whitespace counter. -/
theorem control_byte_changes_counters_cex :
    (processByte initState 224).2 ≠ initState ∧
    (processByte initState 224).2.count = 1 ∧
    (processByte initState 13).2.whitespace = 1 := by
  decide

/-- C3 amended: for every state reachable by feeding any byte sequence
to the scorer, total equals whitespace + punctuation + vowels + other
(the bytes counted only by the bare `count += 1`); an invalid byte
rejects the trial without touching any counter; but the control-set
bytes are not a neutral category: 0x0D increments whitespace and the
total, and 0xE0 increments the total. -/
theorem scorer_sum_invariant :
    (∀ bs : List Nat,
      (feed initState bs).count =
        (feed initState bs).whitespace + (feed initState bs).punctuation +
          (feed initState bs).vowels + (feed initState bs).other)
    ∧ (∀ (st : TrialState) (b : Nat), classifyByte b = .invalidC →
        processByte st b = (.rejected, st))
    ∧ (∀ st : TrialState, (processByte st 13).2.count = st.count + 1 ∧
        (processByte st 13).2.whitespace = st.whitespace + 1 ∧
        (processByte st 224).2.count = st.count + 1) := by
  refine ⟨fun bs => feed_preserves_sum bs initState (by decide), ?_, ?_⟩
  · intro st b h
    simp [processByte, h]
  · intro st
    have h13 : classifyByte 13 = .whitespaceC := by decide
    have h224 : classifyByte 224 = .otherValidC := by decide
    refine ⟨?_, ?_, ?_⟩ <;> simp only [processByte, h13, h224] <;>
      split <;> simp

/-- C3 witness: the invariant evaluated on a concrete byte sequence, and
the invalid-byte case discharged at byte 0x00. -/
theorem scorer_sum_invariant_witness :
    ((feed initState [97, 32, 224, 46]).count =
      (feed initState [97, 32, 224, 46]).whitespace +
        (feed initState [97, 32, 224, 46]).punctuation +
        (feed initState [97, 32, 224, 46]).vowels +
        (feed initState [97, 32, 224, 46]).other)
    ∧ processByte initState 0 = (.rejected, initState) :=
  ⟨scorer_sum_invariant.1 [97, 32, 224, 46],
   scorer_sum_invariant.2.1 initState 0 (by decide)⟩

lemma scanCandidates_take (chg : Int → Bool) (env : Int → List TrialEvent)
    (trigger : Bool) (payload : List Nat) :
    ∀ cands : List Int,
      (scanCandidates chg env trigger payload cands).map Prod.fst =
        cands.take (scanCandidates chg env trigger payload cands).length := by
  intro cands
  induction cands with
  | nil => simp [scanCandidates]
  | cons c rest ih =>
    rw [scanCandidates]
    split
    · rcases h : (runTrial trigger payload (env c)).outcome <;>
        simp [h, List.take_succ_cons, ih]
    · simp [List.take_succ_cons, ih]

lemma baudratesGo_all_candidates (chg : Int → Bool) (env : Int → List TrialEvent)
    (trigger : Bool) :
    ∀ (cands : List Int) (st : TrialState),
      (baudratesGo chg env trigger st cands).map BRecord.baudrate = cands := by
  intro cands
  induction cands with
  | nil => intro st; simp [baudratesGo]
  | cons c rest ih =>
    intro st
    rw [baudratesGo]
    split <;> simp [ih]

/-- C4: in baudrates.py the `break` taken on acceptance (lines 183-184)
exits only the inner while loop, so the candidate scan is not terminal:
with a target that accepts at 9600, all five candidates of
`self.baudrates` are still tried, and 19200 is even accepted
immediately because the counters carry over already satisfying the
threshold.  The baudrate.py variant on the same environment stops at
9600, as the claim describes.  In general, the baudrate.py scan visits
an initial segment of the candidate sequence while the baudrates.py
scan always visits every candidate; in both, each candidate position
is visited at most once. -/
theorem accepted_not_terminal_v1_eval :
    ((baudrateDetect (fun _ => true) envC4 false).map BRecord.baudrate =
      [9600, 19200, 38400, 57600, 115200] ∧
    (baudrateDetect (fun _ => true) envC4 false).map BRecord.outcome =
      [some .accepted, some .accepted, some .noData, some .noData, some .noData] ∧
    scanCandidates (fun _ => true) envC4 false [] baudratesList =
      [(9600, .ran .accepted)])
    ∧ (∀ (chg : Int → Bool) (env : Int → List TrialEvent) (trigger : Bool)
        (payload : List Nat) (cands : List Int),
        (scanCandidates chg env trigger payload cands).map Prod.fst =
          cands.take (scanCandidates chg env trigger payload cands).length)
    ∧ (∀ (chg : Int → Bool) (env : Int → List TrialEvent) (trigger : Bool)
        (st : TrialState) (cands : List Int),
        (baudratesGo chg env trigger st cands).map BRecord.baudrate = cands) :=
  ⟨by decide,
   fun chg env trigger payload cands => scanCandidates_take chg env trigger payload cands,
   fun chg env trigger st cands => baudratesGo_all_candidates chg env trigger cands st⟩

/-- C5 counterexample: with a target that sends three letters at 9600
and then goes silent, the first baudrates.py trial ends in a timeout
with `count = 3`, and the second trial starts from those same counters
— not from zero as the claim states. -/
theorem counters_carry_across_trials_cex :
    (baudrateDetect (fun _ => true) envC5 false).map BRecord.startState =
      [⟨0, 0, 0, 0, 0⟩, ⟨3, 0, 0, 3, 0⟩, ⟨3, 0, 0, 3, 0⟩,
       ⟨3, 0, 0, 3, 0⟩, ⟨3, 0, 0, 3, 0⟩] ∧
    (baudrateDetect (fun _ => true) envC5 false).map BRecord.outcome =
      [some .noData, some .noData, some .noData, some .noData, some .noData] := by
  decide

end UartBaudrate

namespace UartBaudrate

lemma innerLoopV1_rejected (trigger : Bool) :
    ∀ (events : List TrialEvent) (st : TrialState) (loop : Nat),
      (innerLoopV1 trigger st loop events).1 = .rejected →
      (innerLoopV1 trigger st loop events).2 = initState := by
  intro events
  induction events with
  | nil => intro st loop h; simp [innerLoopV1] at h
  | cons ev rest ih =>
    intro st loop h
    cases ev with
    | byteReceived b =>
      rcases hpb : processByte st b with ⟨r, st'⟩
      rw [innerLoopV1, hpb] at h ⊢
      cases r with
      | accepted => simp_all
      | rejected => rfl
      | continued => exact ih st' loop h
    | timeout =>
      rw [innerLoopV1] at h ⊢
      split at h
      · rw [if_pos (by assumption)]
        exact ih st (loop + 1) h
      · simp_all

lemma baudratesGo_head_start (chg : Int → Bool) (env : Int → List TrialEvent)
    (trigger : Bool) (st : TrialState) (cands : List Int) (r : BRecord)
    (h : (baudratesGo chg env trigger st cands).head? = some r) :
    r.startState = st := by
  cases cands with
  | nil => simp [baudratesGo] at h
  | cons c rest =>
    rw [baudratesGo] at h
    split at h <;> (rw [List.head?_cons] at h; cases h; rfl)

lemma baudratesGo_chain (chg : Int → Bool) (env : Int → List TrialEvent)
    (trigger : Bool) :
    ∀ (cands : List Int) (st : TrialState),
      List.Chain' (fun a b => b.startState = a.endState)
        (baudratesGo chg env trigger st cands) := by
  intro cands
  induction cands with
  | nil => intro st; simp [baudratesGo]
  | cons c rest ih =>
    intro st
    rw [baudratesGo]
    split
    · refine List.chain'_cons'.mpr ⟨?_, ih _⟩
      intro y hy
      exact baudratesGo_head_start chg env trigger _ rest y hy
    · refine List.chain'_cons'.mpr ⟨?_, ih _⟩
      intro y hy
      exact baudratesGo_head_start chg env trigger _ rest y hy

lemma baudratesGo_rejected_resets (chg : Int → Bool) (env : Int → List TrialEvent)
    (trigger : Bool) :
    ∀ (cands : List Int) (st : TrialState) (r : BRecord),
      r ∈ baudratesGo chg env trigger st cands →
      r.outcome = some .rejected → r.endState = initState := by
  intro cands
  induction cands with
  | nil => intro st r h; simp [baudratesGo] at h
  | cons c rest ih =>
    intro st r hmem hout
    rw [baudratesGo] at hmem
    split at hmem <;> rcases List.mem_cons.mp hmem with hhd | htl
    · subst hhd
      simp only at hout ⊢
      have := innerLoopV1_rejected trigger (env c) st 0 (by
        simpa using congrArg (fun o => o.getD TrialOutcome.noData) hout)
      simpa using this
    · exact ih _ r htl hout
    · subst hhd; simp at hout
    · exact ih _ r htl hout

/-- C5 amended: in baudrate.py every trial starts from zeroed counters
and a zeroed trigger counter (`process_baudrate` initialises its
locals, lines 202-208).  In baudrates.py only the trigger counter is
reset per candidate (line 142): the byte counters at the start of each
trial are exactly the counters at the end of the previous trial, and
they are zeroed only when a trial ends on an invalid byte (lines
169-172), not on acceptance or timeout. -/
theorem trial_state_lifecycle :
    (∀ (chg : Int → Bool) (env : Int → List TrialEvent) (trigger : Bool)
        (st : TrialState) (cands : List Int),
      List.Chain' (fun a b => b.startState = a.endState)
        (baudratesGo chg env trigger st cands)
      ∧ ∀ r ∈ baudratesGo chg env trigger st cands,
          r.outcome = some .rejected → r.endState = initState)
    ∧ (∀ (trigger : Bool) (payload : List Nat) (events : List TrialEvent),
        runTrial trigger payload events = processBaudrate trigger payload initState 0 events) :=
  ⟨fun chg env trigger st cands =>
    ⟨baudratesGo_chain chg env trigger cands st,
     fun r => baudratesGo_rejected_resets chg env trigger cands st r⟩,
   fun _ _ _ => rfl⟩

/-- C5 witness: the chain property evaluated on a concrete run, and the
rejection case discharged on a concrete record of that run. -/
theorem trial_state_lifecycle_witness :
    List.Chain' (fun a b => b.startState = a.endState)
      (baudratesGo (fun _ => true) envR false initState [9600, 19200])
    ∧ (⟨9600, initState, some .rejected, initState⟩ : BRecord).endState = initState :=
  ⟨(trial_state_lifecycle.1 (fun _ => true) envR false initState [9600, 19200]).1,
   (trial_state_lifecycle.1 (fun _ => true) envR false initState [9600, 19200]).2
     ⟨9600, initState, some .rejected, initState⟩ (by decide) (by decide)⟩

lemma pySplitComma_ne_nil : ∀ s : List Nat, pySplitComma s ≠ [] := by
  intro s
  induction s with
  | nil => simp [pySplitComma]
  | cons c rest ih =>
    rw [pySplitComma]
    split
    · simp
    · rcases h : pySplitComma rest with _ | ⟨hd, tl⟩
      · exact absurd h ih
      · simp

/-- C6 counterexample: `check_options` returns `True` for an
incremental configuration with `min >= max` and `step = 0`, for a list
configuration with an empty candidate list, and for a list
configuration whose list "abc" is unparsable; in the latter two cases
the parse of `list_mode` raises only at run time (`none`). -/
theorem check_options_no_failfast_cex :
    checkOptions ⟨none, strLow, strIncremental, [], 1200, 300, 0⟩ = true ∧
    checkOptions ⟨none, strLow, strList, [], 300, 115200, 300⟩ = true ∧
    checkOptions ⟨none, strLow, strList, [97, 98, 99], 300, 115200, 300⟩ = true ∧
    listModeCandidates [] = none ∧
    listModeCandidates [97, 98, 99] = none := by
  decide

/-- C6 amended: `check_options` validates only the reset direction, the
reset pin and the mode name.  With those valid it accepts every
incremental configuration whatever `min`, `max` and `step` are, and it
accepts every list configuration whatever the list string is, because
splitting any string on ',' yields at least one (possibly empty) entry,
so the empty-list branch is unreachable and entries are never parsed
here; an unparsable entry fails only when `list_mode` calls `int` at
run time. -/
theorem check_options_actual_validation :
    (∀ (mn mx inc : Int) (ls : List Nat),
        checkOptions ⟨none, strLow, strIncremental, ls, mn, mx, inc⟩ = true)
    ∧ (∀ (mn mx inc : Int) (ls : List Nat),
        checkOptions ⟨none, strLow, strList, ls, mn, mx, inc⟩ = true)
    ∧ (∀ s : List Nat, (pySplitComma s).map pyStrip ≠ [])
    ∧ listModeCandidates [97, 98, 99] = none := by
  refine ⟨?_, ?_, ?_, by decide⟩
  · intro mn mx inc ls
    rfl
  · intro mn mx inc ls
    show modeChecks _ = true
    rw [modeChecks]
    dsimp only
    rw [if_neg (by decide), if_pos (by decide)]
    rw [if_neg (by simp [List.map_eq_nil_iff, pySplitComma_ne_nil])]
  · intro s
    simp [List.map_eq_nil_iff, pySplitComma_ne_nil]

/-- C9 counterexample: a user interrupt raises `KeyboardInterrupt`,
which the `except (Exception, ValueError)` handler of `run` does not
catch, so it propagates past the engine boundary — contradicting "no
exception propagates past the top-level run entry point". -/
theorem keyboard_interrupt_escapes_cex :
    runPropagates .keyboardInterruptClass = true ∧
    clauseCatches runExceptClause .keyboardInterruptClass = false := by
  decide

/-- C9 amended: `KeyboardInterrupt` derives from `BaseException` but
not from `Exception`, so the `except (Exception, ValueError)` clause of
`run` does not catch a user interrupt and it propagates past the run
entry point; nothing on that path releases the reset line or reports a
result.  `Exception`-derived errors (including `ValueError`) are caught
and logged. -/
theorem run_exception_handling :
    isSubclass .keyboardInterruptClass .baseExceptionClass = true ∧
    isSubclass .keyboardInterruptClass .exceptionClass = false ∧
    clauseCatches runExceptClause .keyboardInterruptClass = false ∧
    runPropagates .keyboardInterruptClass = true ∧
    clauseCatches runExceptClause .valueErrorClass = true ∧
    clauseCatches runExceptClause .exceptionClass = true ∧
    runPropagates .valueErrorClass = false ∧
    runPropagates .exceptionClass = false := by
  decide

/-- C10: with the other options valid, a configured reset pin passes
`check_options` exactly when it lies in `range(0, 15)`, that is, when
`0 <= pin <= 14`; any pin outside that interval, 15 included, makes
`check_options` return `False`, so `run` returns before any trial. -/
theorem reset_pin_range :
    ∀ p : Int,
      checkOptions ⟨some p, strLow, strIncremental, [], 300, 115200, 300⟩ = true ↔
        (0 ≤ p ∧ p ≤ 14) := by
  intro p
  rw [checkOptions]
  dsimp only
  rw [if_neg (by decide)]
  by_cases h : 0 ≤ p ∧ p < 15
  · rw [if_neg (by simpa using h)]
    constructor
    · intro _; omega
    · intro _; rfl
  · rw [if_pos (by simpa using h)]
    constructor
    · intro hfalse; cases hfalse
    · intro hrange; omega

/-- C10 witness: pin 15 is rejected and pin 14 accepted. -/
theorem reset_pin_range_witness :
    checkOptions ⟨some 15, strLow, strIncremental, [], 300, 115200, 300⟩ = false ∧
    checkOptions ⟨some 14, strLow, strIncremental, [], 300, 115200, 300⟩ = true := by
  constructor
  · cases h : checkOptions ⟨some 15, strLow, strIncremental, [], 300, 115200, 300⟩
    · rfl
    · exact absurd ((reset_pin_range 15).mp h) (by decide)
  · exact (reset_pin_range 14).mpr (by decide)

lemma pyRangeUpAux_mem (step hi : Int) (hstep : 0 < step) :
    ∀ (n : Nat) (lo x : Int), (hi - lo).toNat ≤ n →
      (x ∈ pyRangeUpAux step hi n lo ↔ (x < hi ∧ ∃ k : Nat, x = lo + step * k)) := by
  intro n
  induction n with
  | zero =>
    intro lo x hn
    simp only [pyRangeUpAux, List.not_mem_nil, false_iff]
    rintro ⟨hx, k, rfl⟩
    have hk : 0 ≤ step * k := mul_nonneg (le_of_lt hstep) (Int.natCast_nonneg k)
    omega
  | succ n ih =>
    intro lo x hn
    rw [pyRangeUpAux]
    split
    · rw [List.mem_cons, ih (lo + step) x (by omega)]
      constructor
      · rintro (rfl | ⟨hx, k, rfl⟩)
        · exact ⟨by assumption, 0, by simp⟩
        · exact ⟨hx, k + 1, by push_cast; ring⟩
      · rintro ⟨hx, k, rfl⟩
        cases k with
        | zero => left; simp
        | succ j =>
          right
          refine ⟨hx, j, ?_⟩
          push_cast
          ring
    · simp only [List.not_mem_nil, false_iff]
      rintro ⟨hx, k, rfl⟩
      have hk : 0 ≤ step * k := mul_nonneg (le_of_lt hstep) (Int.natCast_nonneg k)
      omega

lemma pyRangeUpAux_head (step hi : Int) :
    ∀ (n : Nat) (lo y : Int), (pyRangeUpAux step hi n lo).head? = some y → y = lo := by
  intro n lo y h
  cases n with
  | zero => simp [pyRangeUpAux] at h
  | succ n =>
    rw [pyRangeUpAux] at h
    split at h
    · rw [List.head?_cons] at h; cases h; rfl
    · simp at h

lemma pyRangeUpAux_chain (step hi : Int) (hstep : 0 < step) :
    ∀ (n : Nat) (lo : Int), List.Chain' (· < ·) (pyRangeUpAux step hi n lo) := by
  intro n
  induction n with
  | zero => intro lo; simp [pyRangeUpAux]
  | succ n ih =>
    intro lo
    rw [pyRangeUpAux]
    split
    · refine List.chain'_cons'.mpr ⟨?_, ih (lo + step)⟩
      intro y hy
      have := pyRangeUpAux_head step hi n (lo + step) y hy
      omega
    · simp

/-- C7: for a positive step, incremental mode produces exactly the
ascending arithmetic progression `min, min + step, …` of values
strictly below `max` (`max` itself is never produced, membership is
exactly being of the form `min + step * k` and below `max`), the
sequence is strictly increasing, and the concrete instance
`(min, max, step) = (300, 1200, 300)` yields `[300, 600, 900]`. -/
theorem incremental_candidates_spec :
    (∀ lo hi step x : Int, 0 < step →
      (x ∈ incrementalCandidates lo hi step ↔
        (x < hi ∧ ∃ k : Nat, x = lo + step * k)))
    ∧ (∀ lo hi step : Int, List.Chain' (· < ·) (incrementalCandidates lo hi step))
    ∧ incrementalCandidates 300 1200 300 = [300, 600, 900] := by
  refine ⟨?_, ?_, by decide⟩
  · intro lo hi step x hstep
    rw [incrementalCandidates, if_pos hstep]
    exact pyRangeUpAux_mem step hi hstep (hi - lo).toNat lo x le_rfl
  · intro lo hi step
    rw [incrementalCandidates]
    split
    · exact pyRangeUpAux_chain step hi (by assumption) (hi - lo).toNat lo
    · simp

/-- C7 witness: the membership characterisation instantiated at the
concrete incremental configuration (300, 1200, 300) and value 600. -/
theorem incremental_candidates_spec_witness :
    (0 : Int) < 300 ∧
    ((600 : Int) ∈ incrementalCandidates 300 1200 300 ↔
      ((600 : Int) < 1200 ∧ ∃ k : Nat, (600 : Int) = 300 + 300 * k)) :=
  ⟨by decide, incremental_candidates_spec.1 300 1200 300 600 (by decide)⟩

lemma processBaudrate_triggers_le (trigger : Bool) (payload : List Nat) :
    ∀ (events : List TrialEvent) (st : TrialState) (loop : Nat),
      (processBaudrate trigger payload st loop events).triggers.length ≤ 3 - loop := by
  intro events
  induction events with
  | nil => intro st loop; simp [processBaudrate]
  | cons ev rest ih =>
    intro st loop
    cases ev with
    | byteReceived b =>
      rcases hpb : processByte st b with ⟨r, st'⟩
      rw [processBaudrate, hpb]
      cases r <;> simp only <;> first | exact ih st' loop | simp
    | timeout =>
      rw [processBaudrate]
      split
      · have hloop : loop < 3 := by
          rename_i hcond
          exact hcond.2
        have := ih st (loop + 1)
        simp only [List.length_cons]
        omega
      · simp

lemma processBaudrate_triggers_payload (trigger : Bool) (payload : List Nat) :
    ∀ (events : List TrialEvent) (st : TrialState) (loop : Nat)
      (e : List Nat × Nat),
      e ∈ (processBaudrate trigger payload st loop events).triggers →
      e = (payload, 200) := by
  intro events
  induction events with
  | nil => intro st loop e h; simp [processBaudrate] at h
  | cons ev rest ih =>
    intro st loop e h
    cases ev with
    | byteReceived b =>
      rcases hpb : processByte st b with ⟨r, st'⟩
      rw [processBaudrate, hpb] at h
      cases r with
      | continued => exact ih st' loop e h
      | accepted => simp at h
      | rejected => simp at h
    | timeout =>
      rw [processBaudrate] at h
      split at h
      · rcases List.mem_cons.mp h with rfl | htl
        · rfl
        · exact ih st (loop + 1) e htl
      · simp at h

/-- C8: within one trial, triggering is bounded: at most 3 trigger
transmissions happen (never a fourth), each recorded transmission is
the configured payload followed by the 200 ms settle delay; with the
trigger disabled a timeout immediately abandons the trial, and in a
trial that only ever times out exactly 3 triggers fire before the trial
is abandoned as "no data received". -/
theorem trigger_retry_policy :
    (∀ (trigger : Bool) (payload : List Nat) (events : List TrialEvent),
      (runTrial trigger payload events).triggers.length ≤ 3)
    ∧ (∀ (trigger : Bool) (payload : List Nat) (events : List TrialEvent)
        (e : List Nat × Nat),
        e ∈ (runTrial trigger payload events).triggers → e = (payload, 200))
    ∧ (∀ (payload : List Nat) (st : TrialState) (loop : Nat)
        (rest : List TrialEvent),
        processBaudrate false payload st loop (.timeout :: rest) = ⟨.noData, st, []⟩)
    ∧ runTrial true [13, 10] (List.replicate 4 .timeout) =
        ⟨.noData, initState, [([13, 10], 200), ([13, 10], 200), ([13, 10], 200)]⟩
    ∧ runTrial true [13, 10] (List.replicate 9 .timeout) =
        ⟨.noData, initState, [([13, 10], 200), ([13, 10], 200), ([13, 10], 200)]⟩ := by
  refine ⟨?_, ?_, ?_, by decide, by decide⟩
  · intro trigger payload events
    simpa using processBaudrate_triggers_le trigger payload events initState 0
  · intro trigger payload events e h
    exact processBaudrate_triggers_payload trigger payload events initState 0 e h
  · intro payload st loop rest
    rw [processBaudrate, if_neg (by simp)]

/-- C8 witness: on a concrete all-timeout trial with the default
payload, the bound and the per-transmission record are discharged at a
concrete log entry. -/
theorem trigger_retry_policy_witness :
    (runTrial true [13, 10] [.timeout]).triggers.length ≤ 3 ∧
    (([13, 10], 200) : List Nat × Nat) = ([13, 10], 200) ∧
    processBaudrate false [13, 10] initState 0 [.timeout] = ⟨.noData, initState, []⟩ :=
  ⟨trigger_retry_policy.1 true [13, 10] [.timeout],
   trigger_retry_policy.2.1 true [13, 10] [.timeout] ([13, 10], 200) (by decide),
   trigger_retry_policy.2.2.1 [13, 10] initState 0 []⟩

/-- C2 witness: the amended behaviour instantiated at the zeroed
counters. -/
theorem control_set_actual_behavior_witness :
    processByte initState 14 = (.rejected, initState) ∧
    (processByte initState 224).1 ≠ .rejected :=
  ⟨(control_set_actual_behavior initState).1,
   (control_set_actual_behavior initState).2.2.2.2.2.2.2.1⟩

/-- C6 witness: the amended behaviour instantiated at a concrete
incremental configuration with `min >= max` and `step = 0`, and at the
empty list string. -/
theorem check_options_actual_validation_witness :
    checkOptions ⟨none, strLow, strIncremental, [], 1200, 300, 0⟩ = true ∧
    (pySplitComma []).map pyStrip ≠ [] :=
  ⟨check_options_actual_validation.1 1200 300 0 [],
   check_options_actual_validation.2.2.1 []⟩

end UartBaudrate

